import Mathlib

/-!
# rust_os: boot hardware map, lwIP options and the ACPICA platform header

A shallow embedding of four C headers of the repository:

* `Bootloaders/arm/platform-realview-pb-a8.h` (the boot hardware map),
* `Kernel/tests/network/lwip/lwip-sys/src/lwipopts.h` (lwIP build options),
* `acpica/patches/source/include/platform/acrust.h` and
  `externals/acpica-sys/patches/source/include/platform/acrust.h`
  (the two variants of the ACPICA platform header, the second with the
  `AcpiOsPrintf` shim).

The headers are preprocessor text, so the embedding is a small model of the
preprocessor: a macro environment, the directives of each header in source
order, and a step function that runs them.
-/

namespace RustOS

/-! ## Boot hardware map: `platform-realview-pb-a8.h` -/

/-- Line 2: `#define RAM_START 0x00000000`. -/
def RAM_START : Nat := 0x00000000

/-- Line 3: `#define RAM_LENGTH 0x10000000`, commented `128MB (a safe assumption)`. -/
def RAM_LENGTH : Nat := 0x10000000

/-- Line 4: `#define UART_BASE 0x10009000`. -/
def UART_BASE : Nat := 0x10009000

/-- The boot hardware map of a platform profile: RAM extent and console address. -/
structure BootHardwareMap where
  ram_base : Nat
  ram_length : Nat
  console_base : Option Nat
  deriving DecidableEq, Repr

/-- The realview-pb-a8 profile, built from the three macros of its header. -/
def realview_pb_a8 : BootHardwareMap :=
  { ram_base := RAM_START, ram_length := RAM_LENGTH, console_base := some UART_BASE }

/-- The platform profiles of the repository. -/
def platformProfiles : List BootHardwareMap := [realview_pb_a8]

/-- Address `a` lies in the RAM byte range `[ram_base, ram_base + ram_length)`. -/
def BootHardwareMap.inRam (m : BootHardwareMap) (a : Nat) : Bool :=
  decide (m.ram_base ≤ a) && decide (a < m.ram_base + m.ram_length)

/-- The console address, when there is one, is outside the RAM byte range. -/
def BootHardwareMap.consoleOutsideRam (m : BootHardwareMap) : Bool :=
  match m.console_base with
  | none => true
  | some a => !m.inRam a

/-! ## lwIP options: `lwipopts.h` -/

/-- Line 1: `#define NO_SYS 0`. -/
def NO_SYS : Int := 0

/-- The C operator `==` on `int`: the result is the `int` 1 or 0. -/
def c_eq (a b : Int) : Int := if a = b then 1 else 0

/-- Line 2: `#define LWIP_SOCKET (NO_SYS==0)`. The macro body is expanded where
it is used, so its value is a function of the value `NO_SYS` expands to. -/
def LWIP_SOCKET (no_sys : Int) : Int := c_eq no_sys 0

/-- Line 3: `#define LWIP_NETCONN (NO_SYS==0)`. -/
def LWIP_NETCONN (no_sys : Int) : Int := c_eq no_sys 0

/-- Line 4: `#define LWIP_NETIF_API (NO_SYS==0)`. -/
def LWIP_NETIF_API (no_sys : Int) : Int := c_eq no_sys 0

/-! ## A model of the preprocessor -/

/-- The replacement list of an object-like macro, as far as the headers use it:
empty (`#define X`), one number, or one identifier. -/
inductive MacroBody where
  | empty
  | num (n : Nat)
  | ident (name : String)
  deriving DecidableEq, Repr

/-- The macro environment: the macros defined at a point of the translation
unit, the most recent definition first. -/
abbrev MacroEnv := List (String × MacroBody)

/-- What `name` expands to, `none` when it is not defined. -/
def valueOf (env : MacroEnv) (name : String) : Option MacroBody :=
  match env with
  | [] => none
  | (n, b) :: rest => if n = name then some b else valueOf rest name

/-- What `#ifdef name` tests. -/
def isDefined (env : MacroEnv) (name : String) : Bool :=
  (valueOf env name).isSome

/-- The directive `#undef name`. -/
def undef (name : String) (env : MacroEnv) : MacroEnv :=
  env.filter (fun p => decide (p.1 ≠ name))

/-- The directive `#define name body`; a previous definition is replaced. -/
def define (name : String) (body : MacroBody) (env : MacroEnv) : MacroEnv :=
  (name, body) :: undef name env

/-- One line of a header that is not a comment, inside its include guard. -/
inductive Directive where
  | define (name : String) (body : MacroBody)
  | undef (name : String)
  | includeFile (file : String)
  | declaration (name : String) (text : String)
  deriving DecidableEq, Repr

/-- A header of the form `#ifndef guard` ... `#endif`. -/
structure Header where
  guard : String
  body : List Directive
  deriving DecidableEq, Repr

/-- The state of preprocessing: the macro environment and the declarations the
header's own text has emitted into the translation unit so far. -/
structure PPState where
  env : MacroEnv
  decls : List (String × String)
  deriving DecidableEq, Repr

/-- One directive. `inc file` is what including `file` does to the macro
environment; the included files are not part of the repository. -/
def step (inc : String → MacroEnv → MacroEnv) (d : Directive) (s : PPState) : PPState :=
  match d with
  | .define n b => { s with env := define n b s.env }
  | .undef n => { s with env := undef n s.env }
  | .includeFile f => { s with env := inc f s.env }
  | .declaration n t => { s with decls := s.decls ++ [(n, t)] }

/-- The directives of a list, in order. -/
def run (inc : String → MacroEnv → MacroEnv) (ds : List Directive) (s : PPState) : PPState :=
  ds.foldl (fun acc d => step inc d acc) s

/-- Processing a guarded header: `#ifndef guard` skips the whole body when the
guard macro is defined. -/
def preprocess (inc : String → MacroEnv → MacroEnv) (h : Header) (s : PPState) : PPState :=
  if isDefined s.env h.guard then s else run inc h.body s

/-- The state at the point where `file` is included: the directives before the
first `#include` of `file` have run, the include itself has not. -/
def stateAtInclude (inc : String → MacroEnv → MacroEnv) (h : Header) (file : String)
    (s : PPState) : PPState :=
  if isDefined s.env h.guard then s
  else run inc (h.body.takeWhile (fun d => decide (d ≠ Directive.includeFile file))) s

/-! ## The two variants of `acrust.h` -/

/-- The text of `acpica/patches/source/include/platform/acrust.h`. -/
def acrust_acpica : Header :=
  { guard := "__ACRUST_H__"
    body :=
      [ .define "__ACRUST_H__" .empty,
        .includeFile "acgcc.h",
        .includeFile "stdint.h",
        .includeFile "stdarg.h",
        .define "ACPI_MACHINE_WIDTH" (.num 64),
        .define "COMPILER_DEPENDENT_INT64" (.ident "int64_t"),
        .define "COMPILER_DEPENDENT_UINT64" (.ident "uint64_t"),
        .define "ACPI_UINTPTR_T" (.ident "uintptr_t"),
        .define "ACPI_USE_DO_WHILE_0" .empty,
        .define "ACPI_USE_LOCAL_CACHE" .empty,
        .define "ACPI_USE_NATIVE_DIVIDE" .empty,
        .define "ACPI_USE_SYSTEM_CLIBRARY" .empty ] }

/-- The text of `externals/acpica-sys/patches/source/include/platform/acrust.h`. -/
def acrust_acpica_sys : Header :=
  { guard := "__ACRUST_H__"
    body :=
      [ .define "__ACRUST_H__" .empty,
        .includeFile "stdint.h",
        .includeFile "stdarg.h",
        .define "ACPI_MACHINE_WIDTH" (.num 64),
        .define "COMPILER_DEPENDENT_INT64" (.ident "int64_t"),
        .define "COMPILER_DEPENDENT_UINT64" (.ident "uint64_t"),
        .define "ACPI_UINTPTR_T" (.ident "uintptr_t"),
        .define "ACPI_USE_DO_WHILE_0" .empty,
        .define "ACPI_USE_LOCAL_CACHE" .empty,
        Directive.undef "ACPI_USE_SYSTEM_CLIBRARY",
        Directive.undef "ACPI_USE_STANDARD_HEADERS",
        .includeFile "acgcc.h",
        .declaration "AcpiOsVprintf" "extern void AcpiOsVprintf(const char *fmt, va_list args);",
        .declaration "AcpiOsPrintf"
          "static inline void AcpiOsPrintf(const char *fmt, ...) \x7b va_list args; va_start(args, fmt); AcpiOsVprintf(fmt, args); va_end(args); \x7d" ] }

/-- A sample of what the three included files do to the macro environment:
each defines its own guard macro, and `acgcc.h` its compiler macros. -/
def sampleIncludes (file : String) (env : MacroEnv) : MacroEnv :=
  if file = "acgcc.h" then
    define "ACPI_INLINE" (.ident "__inline__") (define "__ACGCC_H__" .empty env)
  else if file = "stdint.h" then define "_STDINT_H" (.num 1) env
  else if file = "stdarg.h" then define "_STDARG_H" .empty env
  else env

/-- Directives that are `#include`s or that define or undefine an `ACPI_USE_*`
flag: the two kinds of line in which the variants are said to differ. -/
def isIncludeOrUseFlag (d : Directive) : Bool :=
  match d with
  | .includeFile _ => true
  | .define n _ => "ACPI_USE_".toList.isPrefixOf n.toList
  | .undef n => "ACPI_USE_".toList.isPrefixOf n.toList
  | .declaration _ _ => false

/-- What a header defines or declares apart from its includes and its
`ACPI_USE_*` flags, in source order. -/
def otherItems (h : Header) : List Directive :=
  h.body.filter (fun d => !isIncludeOrUseFlag d)

/-- Whether a directive is a C declaration (not a preprocessor line). -/
def isDeclaration (d : Directive) : Bool :=
  match d with
  | .declaration _ _ => true
  | _ => false

/-! ## Integer types and targets -/

/-- An integer type: signedness and width in bits (no padding bits). -/
structure IntType where
  signed : Bool
  bits : Nat
  deriving DecidableEq, Repr

/-- Smallest value of the type (two's complement when signed). -/
def IntType.minVal (t : IntType) : Int :=
  if t.signed then -(2 ^ (t.bits - 1)) else 0

/-- Largest value of the type. -/
def IntType.maxVal (t : IntType) : Int :=
  if t.signed then 2 ^ (t.bits - 1) - 1 else 2 ^ t.bits - 1

/-- A compilation target, as far as the headers are concerned: its pointer width. -/
structure Target where
  pointer_bits : Nat
  deriving DecidableEq, Repr

/-- The width profiles of the specification: 32-bit and 64-bit targets. -/
def widthProfiles : List Target := [⟨32⟩, ⟨64⟩]

/-- The `<stdint.h>` names the header maps its types to, with the meaning the C
standard gives them: `int64_t` and `uint64_t` are exact-width types,
`uintptr_t` is the unsigned type as wide as a pointer of the target. -/
def stdintType (t : Target) (name : String) : Option IntType :=
  if name = "int64_t" then some ⟨true, 64⟩
  else if name = "uint64_t" then some ⟨false, 64⟩
  else if name = "uintptr_t" then some ⟨false, t.pointer_bits⟩
  else none

/-- The integer type a type-mapping macro stands for in an environment. -/
def typeOfMacro (t : Target) (env : MacroEnv) (name : String) : Option IntType :=
  match valueOf env name with
  | some (.ident ty) => stdintType t ty
  | _ => none

/-- The macro environment a compiler for target `t` starts with: GCC predefines
`__SIZEOF_POINTER__` as the pointer size in bytes. -/
def targetEnv (t : Target) : MacroEnv :=
  [("__SIZEOF_POINTER__", .num (t.pointer_bits / 8))]

/-! ## The logging shim `AcpiOsPrintf` (acpica-sys variant, lines 27-33) -/

/-- A value passed through the `...` of a variadic call. -/
inductive CArg where
  | int (v : Int)
  | str (s : String)
  deriving DecidableEq, Repr

/-- The three statements of the body of `AcpiOsPrintf`. -/
inductive ShimStmt where
  | va_start
  | call_AcpiOsVprintf
  | va_end
  deriving DecidableEq, Repr

/-- The state while the shim runs: the world outside the shim, the local
`va_list args` (`none` while it is not started), and the calls made so far to
the external `AcpiOsVprintf`, each with the arguments it received. -/
structure ShimState (Fmt Arg W : Type) where
  world : W
  args : Option (List Arg)
  calls : List (Fmt × List Arg)

/-- One statement of the shim. `vprintf` is the external `AcpiOsVprintf`; it
answers `none` when it crashes. `fmt` and `variadic` are the parameters of the
call of `AcpiOsPrintf`. Using a `va_list` that is not started has no defined
behaviour and is `none`. -/
def execStmt {Fmt Arg W : Type} (vprintf : Fmt → List Arg → W → Option W)
    (fmt : Fmt) (variadic : List Arg) (st : ShimStmt) (s : ShimState Fmt Arg W) :
    Option (ShimState Fmt Arg W) :=
  match st with
  | .va_start => some { s with args := some variadic }
  | .call_AcpiOsVprintf =>
    match s.args with
    | none => none
    | some a =>
      match vprintf fmt a s.world with
      | none => none
      | some w => some { s with world := w, calls := s.calls ++ [(fmt, a)] }
  | .va_end =>
    match s.args with
    | none => none
    | some _ => some { s with args := none }

/-- A statement list, in order, stopping at the first failure. -/
def execStmts {Fmt Arg W : Type} (vprintf : Fmt → List Arg → W → Option W)
    (fmt : Fmt) (variadic : List Arg) :
    List ShimStmt → ShimState Fmt Arg W → Option (ShimState Fmt Arg W)
  | [], s => some s
  | st :: rest, s =>
    match execStmt vprintf fmt variadic st s with
    | none => none
    | some s' => execStmts vprintf fmt variadic rest s'

/-- The body of `AcpiOsPrintf`: `va_start(args, fmt); AcpiOsVprintf(fmt, args);
va_end(args);`. -/
def AcpiOsPrintf_body : List ShimStmt :=
  [.va_start, .call_AcpiOsVprintf, .va_end]

/-- A call `AcpiOsPrintf(fmt, variadic...)` in world `w`: the world afterwards
and the calls of `AcpiOsVprintf` it made, or `none` when it did not return. -/
def AcpiOsPrintf {Fmt Arg W : Type} (vprintf : Fmt → List Arg → W → Option W)
    (fmt : Fmt) (variadic : List Arg) (w : W) : Option (W × List (Fmt × List Arg)) :=
  match execStmts vprintf fmt variadic AcpiOsPrintf_body ⟨w, none, []⟩ with
  | none => none
  | some s => some (s.world, s.calls)

/-- A piece of a rendered log message: a literal character or a rendered value. -/
inductive Piece where
  | ch (c : Char)
  | val (a : CArg)
  deriving DecidableEq, Repr

/-- Modelled from the spec: what section 8 calls the placeholders of a
template, counted in the `printf` convention of the formatter behind
`AcpiOsVprintf` (whose body is not among the four headers): a `%` followed
by a conversion character, `%%` being a literal percent sign. `pending`
tells that the previous character was an unfinished `%`. -/
def placeholders (pending : Bool) : List Char → Nat
  | [] => 0
  | c :: rest =>
    if pending then (if c = '%' then 0 else 1) + placeholders false rest
    else if c = '%' then placeholders true rest
    else placeholders false rest

/-- What `va_arg` reads from the `va_list` that `va_start(args, fmt)` sets up
in a call with the variadic arguments `supplied`: these arguments in order and
then, a `va_list` carrying neither a count nor an end marker, whatever the
argument area holds after them (`beyond`). C leaves a read past the supplied
arguments undefined; yielding what lies there is what the usual calling
conventions do. -/
def va_arg_sequence (supplied : List CArg) (beyond : Nat → CArg) (i : Nat) : CArg :=
  match supplied[i]? with
  | some a => a
  | none => beyond (i - supplied.length)

/-- A callee with the prototype of line 27,
`void AcpiOsVprintf(const char *fmt, va_list args)`: of the arguments of the
call it receives the `va_list` only, so it is a function of the template and of
what `va_arg` reads, and it may crash (`none`). -/
def behindVaList {W : Type} (body : String → (Nat → CArg) → W → Option W)
    (beyond : Nat → CArg) (fmt : String) (args : List CArg) (w : W) : Option W :=
  body fmt (va_arg_sequence args beyond) w

/-- A sample of a formatter that reads a `va_list`, in the `printf` convention:
literal characters are copied, `%%` is a percent sign, every other placeholder
takes the next `va_arg`; `%s` follows its value as a pointer to a string and
faults (`none`) on a value that is none. `i` counts the reads made so far. -/
def renderVaList (pending : Bool) : List Char → (Nat → CArg) → Nat → Option (List Piece)
  | [], _, _ => some []
  | c :: rest, va, i =>
    if pending then
      if c = '%' then (renderVaList false rest va i).map (fun m => Piece.ch '%' :: m)
      else if c = 's' then
        match va i with
        | .str t => (renderVaList false rest va (i + 1)).map (fun m => Piece.val (.str t) :: m)
        | .int _ => none
      else (renderVaList false rest va (i + 1)).map (fun m => Piece.val (va i) :: m)
    else if c = '%' then renderVaList true rest va i
    else (renderVaList false rest va i).map (fun m => Piece.ch c :: m)

/-- A sample body for `AcpiOsVprintf` (the real one is not among the four
headers): it renders the template with `renderVaList` and appends the message
to the log. -/
def sampleVprintf (fmt : String) (va : Nat → CArg) (log : List (List Piece)) :
    Option (List (List Piece)) :=
  (renderVaList false fmt.toList va 0).map (fun msg => log ++ [msg])

/-- The values a message renders, in order. -/
def renderedValues : List Piece → List CArg
  | [] => []
  | .ch _ :: rest => renderedValues rest
  | .val a :: rest => a :: renderedValues rest

/-- The value a macro has after the header was processed from environment `env`. -/
def configured (inc : String → MacroEnv → MacroEnv) (h : Header) (env : MacroEnv)
    (name : String) : Option MacroBody :=
  valueOf (preprocess inc h ⟨env, []⟩).env name

/-- The four macros that make up the width profile. -/
def widthMacros : List String :=
  ["ACPI_MACHINE_WIDTH", "COMPILER_DEPENDENT_INT64", "COMPILER_DEPENDENT_UINT64",
   "ACPI_UINTPTR_T"]

/-- The `ACPI_USE_*` flags that one of the variants defines or undefines. -/
def useFlags : List String :=
  ["ACPI_USE_DO_WHILE_0", "ACPI_USE_LOCAL_CACHE", "ACPI_USE_NATIVE_DIVIDE",
   "ACPI_USE_SYSTEM_CLIBRARY", "ACPI_USE_STANDARD_HEADERS"]

/-- How many declarations of `name` the header's text has emitted. -/
def emitted (name : String) (s : PPState) : Nat :=
  (s.decls.filter (fun d => decide (d.1 = name))).length

/-! ## Lemmas on the macro environment -/

theorem valueOf_undef (n m : String) (env : MacroEnv) :
    valueOf (undef n env) m = if n = m then none else valueOf env m := by
  induction env with
  | nil => simp [undef, valueOf]
  | cons p rest ih =>
    obtain ⟨k, b⟩ := p
    unfold undef at ih ⊢
    by_cases hk : k = n
    · subst hk
      by_cases hm : k = m
      · simp [List.filter, valueOf, hm] at ih ⊢
        simpa [hm] using ih
      · simp [List.filter, valueOf, hm] at ih ⊢
        exact ih
    · by_cases hm : n = m
      · subst hm
        simp [List.filter, hk, valueOf] at ih ⊢
        exact ih
      · simp [List.filter, hk, valueOf, hm] at ih ⊢
        rw [ih]

theorem valueOf_define (n m : String) (b : MacroBody) (env : MacroEnv) :
    valueOf (define n b env) m = if n = m then some b else valueOf env m := by
  by_cases h : n = m
  · simp [define, valueOf, h]
  · simp [define, valueOf, h, valueOf_undef]

theorem isDefined_define (n m : String) (b : MacroBody) (env : MacroEnv) :
    isDefined (define n b env) m = (decide (n = m) || isDefined env m) := by
  by_cases h : n = m <;> simp [isDefined, valueOf_define, h]

theorem isDefined_undef (n m : String) (env : MacroEnv) :
    isDefined (undef n env) m = (!decide (n = m) && isDefined env m) := by
  by_cases h : n = m <;> simp [isDefined, valueOf_undef, h]

/-- The included files of `sampleIncludes` leave every macro alone whose name
is none of the four they define. -/
theorem sampleIncludes_frame (f : String) (e : MacroEnv) (n : String)
    (h1 : n ≠ "ACPI_INLINE") (h2 : n ≠ "__ACGCC_H__") (h3 : n ≠ "_STDINT_H")
    (h4 : n ≠ "_STDARG_H") :
    valueOf (sampleIncludes f e) n = valueOf e n := by
  unfold sampleIncludes
  split
  · simp [valueOf_define, Ne.symm h1, Ne.symm h2]
  · split
    · simp [valueOf_define, Ne.symm h3]
    · split
      · simp [valueOf_define, Ne.symm h4]
      · rfl

/-- After either variant has been processed from an environment without the
guard, each width macro has the value its `#define` gives it, provided the
`acgcc.h` included last by the acpica-sys variant leaves the macro alone. -/
theorem configured_width_macros (inc : String → MacroEnv → MacroEnv) (env : MacroEnv)
    (hguard : isDefined env "__ACRUST_H__" = false)
    (hframe : ∀ e n, n ∈ widthMacros → valueOf (inc "acgcc.h" e) n = valueOf e n) :
    (configured inc acrust_acpica env "ACPI_MACHINE_WIDTH" = some (.num 64) ∧
     configured inc acrust_acpica env "COMPILER_DEPENDENT_INT64" = some (.ident "int64_t") ∧
     configured inc acrust_acpica env "COMPILER_DEPENDENT_UINT64" = some (.ident "uint64_t") ∧
     configured inc acrust_acpica env "ACPI_UINTPTR_T" = some (.ident "uintptr_t")) ∧
    (configured inc acrust_acpica_sys env "ACPI_MACHINE_WIDTH" = some (.num 64) ∧
     configured inc acrust_acpica_sys env "COMPILER_DEPENDENT_INT64" = some (.ident "int64_t") ∧
     configured inc acrust_acpica_sys env "COMPILER_DEPENDENT_UINT64"
       = some (.ident "uint64_t") ∧
     configured inc acrust_acpica_sys env "ACPI_UINTPTR_T" = some (.ident "uintptr_t")) := by
  have f1 := fun e => hframe e "ACPI_MACHINE_WIDTH" (by simp [widthMacros])
  have f2 := fun e => hframe e "COMPILER_DEPENDENT_INT64" (by simp [widthMacros])
  have f3 := fun e => hframe e "COMPILER_DEPENDENT_UINT64" (by simp [widthMacros])
  have f4 := fun e => hframe e "ACPI_UINTPTR_T" (by simp [widthMacros])
  refine ⟨?_, ?_⟩
  · simp [configured, preprocess, hguard, run, step, acrust_acpica, valueOf_define]
  · simp [configured, preprocess, hguard, run, step, acrust_acpica_sys, valueOf_define,
      valueOf_undef, f1, f2, f3, f4]

/-- A directive other than `#undef g` keeps `g` defined, when the included
files do. -/
theorem step_keeps_defined (inc : String → MacroEnv → MacroEnv) (g : String)
    (hkeep : ∀ f e, isDefined e g = true → isDefined (inc f e) g = true)
    (d : Directive) (hd : d ≠ Directive.undef g) (s : PPState)
    (h : isDefined s.env g = true) : isDefined (step inc d s).env g = true := by
  cases d with
  | define n b => simp [step, isDefined_define, h]
  | undef n =>
    have hn : n ≠ g := fun e => hd (by rw [e])
    simp [step, isDefined_undef, h, hn]
  | includeFile f => exact hkeep f s.env h
  | declaration n t => exact h

/-- A directive list without `#undef g` keeps `g` defined. -/
theorem run_keeps_defined (inc : String → MacroEnv → MacroEnv) (g : String)
    (hkeep : ∀ f e, isDefined e g = true → isDefined (inc f e) g = true)
    (ds : List Directive) (hds : ∀ d ∈ ds, d ≠ Directive.undef g) (s : PPState)
    (h : isDefined s.env g = true) : isDefined (run inc ds s).env g = true := by
  induction ds generalizing s with
  | nil => exact h
  | cons d rest ih =>
    have hstep := step_keeps_defined inc g hkeep d (hds d (by simp)) s h
    exact ih (fun d' hd' => hds d' (by simp [hd'])) (step inc d s) hstep

/-- A guarded header that defines its guard first and never undefines it is
skipped by a second inclusion, when the files it includes keep the guard. -/
theorem preprocess_twice (inc : String → MacroEnv → MacroEnv) (h : Header)
    (rest : List Directive) (hbody : h.body = Directive.define h.guard MacroBody.empty :: rest)
    (hrest : ∀ d ∈ rest, d ≠ Directive.undef h.guard)
    (hkeep : ∀ f e, isDefined e h.guard = true → isDefined (inc f e) h.guard = true)
    (s : PPState) : preprocess inc h (preprocess inc h s) = preprocess inc h s := by
  by_cases hg : isDefined s.env h.guard = true
  · simp [preprocess, hg]
  · have hfirst : isDefined (step inc (Directive.define h.guard MacroBody.empty) s).env h.guard
        = true := by
      simp [step, isDefined_define]
    have hend : isDefined (run inc h.body s).env h.guard = true := by
      rw [hbody]
      exact run_keeps_defined inc h.guard hkeep rest hrest _ hfirst
    have hone : preprocess inc h s = run inc h.body s := by
      simp [preprocess, hg]
    rw [hone]
    simp [preprocess, hend]

/-- The shim makes the one call of `AcpiOsVprintf`, with the template and the
variadic arguments it was given, and returns what that call returns. -/
theorem AcpiOsPrintf_eq {Fmt Arg W : Type} (vprintf : Fmt → List Arg → W → Option W)
    (fmt : Fmt) (args : List Arg) (w : W) :
    AcpiOsPrintf vprintf fmt args w
      = (vprintf fmt args w).map (fun w' => (w', [(fmt, args)])) := by
  cases h : vprintf fmt args w <;>
    simp [AcpiOsPrintf, AcpiOsPrintf_body, execStmts, execStmt, h]

/-- A callee that reads a `va_list` cannot tell a call from the call with `k`
further arguments equal to what the argument area holds next. -/
theorem va_arg_sequence_append (args : List CArg) (beyond : Nat → CArg) (k : Nat) :
    va_arg_sequence (args ++ (List.range k).map beyond) (fun i => beyond (i + k))
      = va_arg_sequence args beyond := by
  funext i
  unfold va_arg_sequence
  by_cases h1 : i < args.length
  · rw [List.getElem?_append_left h1, List.getElem?_eq_getElem h1]
  · have h1' : args.length ≤ i := Nat.le_of_not_lt h1
    have hnone : args[i]? = none := List.getElem?_eq_none h1'
    rw [List.getElem?_append_right h1', hnone]
    by_cases h2 : i - args.length < k
    · simp [List.getElem?_map, List.getElem?_range, h2]
    · have h2' : k ≤ i - args.length := Nat.le_of_not_lt h2
      have hnone2 : ((List.range k).map beyond)[i - args.length]? = none :=
        List.getElem?_eq_none (by simpa using h2')
      rw [hnone2]
      simp only [List.length_append, List.length_map, List.length_range]
      congr 1
      omega

/-! ## The claims -/

/-- C1: in the realview-pb-a8 profile, the only boot hardware map of the
repository, `RAM_LENGTH` is positive and the console address `UART_BASE` is not
in the RAM byte range `[RAM_START, RAM_START + RAM_LENGTH)`. -/
theorem realview_ram_nonempty_console_outside :
    0 < RAM_LENGTH ∧
    ¬ (RAM_START ≤ UART_BASE ∧ UART_BASE < RAM_START + RAM_LENGTH) ∧
    platformProfiles = [realview_pb_a8] ∧
    ∀ m ∈ platformProfiles, 0 < m.ram_length ∧ m.consoleOutsideRam = true := by
  refine ⟨by decide, by decide, rfl, ?_⟩
  intro m hm
  simp only [platformProfiles, List.mem_singleton] at hm
  subst hm
  exact ⟨by decide, by decide⟩

/-- C5, evaluated on the code: `RAM_LENGTH` is 0x10000000 = 268435456 bytes,
which is 256 * 2^20 and not the 128 * 2^20 = 134217728 of the comment on its
definition. -/
theorem realview_ram_length_is_256_mib :
    RAM_LENGTH = 268435456 ∧ RAM_LENGTH = 256 * 2 ^ 20 ∧ RAM_LENGTH ≠ 128 * 2 ^ 20 ∧
    realview_pb_a8.ram_length = 2 * 134217728 := by
  decide

/-- C3, evaluated on the code for a 32-bit target: both variants configure
`ACPI_MACHINE_WIDTH` as 64 while `ACPI_UINTPTR_T` (`uintptr_t`) is 32 bits
wide there, so the configured width is not the pointer width for every
profile of the set; on the 64-bit target the two agree. -/
theorem machine_width_is_64_on_32_bit_target :
    configured sampleIncludes acrust_acpica (targetEnv ⟨32⟩) "ACPI_MACHINE_WIDTH"
      = some (.num 64) ∧
    configured sampleIncludes acrust_acpica_sys (targetEnv ⟨32⟩) "ACPI_MACHINE_WIDTH"
      = some (.num 64) ∧
    typeOfMacro ⟨32⟩ (preprocess sampleIncludes acrust_acpica ⟨targetEnv ⟨32⟩, []⟩).env
      "ACPI_UINTPTR_T" = some ⟨false, 32⟩ ∧
    typeOfMacro ⟨32⟩ (preprocess sampleIncludes acrust_acpica_sys ⟨targetEnv ⟨32⟩, []⟩).env
      "ACPI_UINTPTR_T" = some ⟨false, 32⟩ ∧
    (¬ ∀ t ∈ widthProfiles, configured sampleIncludes acrust_acpica (targetEnv t)
      "ACPI_MACHINE_WIDTH" = some (.num t.pointer_bits)) ∧
    (¬ ∀ t ∈ widthProfiles, configured sampleIncludes acrust_acpica_sys (targetEnv t)
      "ACPI_MACHINE_WIDTH" = some (.num t.pointer_bits)) ∧
    configured sampleIncludes acrust_acpica (targetEnv ⟨64⟩) "ACPI_MACHINE_WIDTH"
      = some (.num (Target.mk 64).pointer_bits) ∧
    configured sampleIncludes acrust_acpica_sys (targetEnv ⟨64⟩) "ACPI_MACHINE_WIDTH"
      = some (.num (Target.mk 64).pointer_bits) := by
  refine ⟨by decide, by decide, by decide, by decide, ?_, ?_, by decide, by decide⟩
  · intro h
    exact absurd (h ⟨32⟩ (by decide)) (by decide)
  · intro h
    exact absurd (h ⟨32⟩ (by decide)) (by decide)

/-- C4: in both variants of `acrust.h` the width profile is the same and
consistent. After the header was processed (from any environment without the
guard, the `acgcc.h` that the acpica-sys variant includes last leaving the four
macros alone), `ACPI_MACHINE_WIDTH` is 64, a member of the set of 32 and 64;
`COMPILER_DEPENDENT_INT64` is `int64_t`, signed, 64 bits, range -2^63 to
2^63-1; `COMPILER_DEPENDENT_UINT64` is `uint64_t`, unsigned, 64 bits, range
0 to 2^64-1; `ACPI_UINTPTR_T` is `uintptr_t`; and the variants agree on all
four. -/
theorem width_profile_same_in_both_variants (inc : String → MacroEnv → MacroEnv)
    (env : MacroEnv) (t : Target)
    (hguard : isDefined env "__ACRUST_H__" = false)
    (hframe : ∀ e n, n ∈ widthMacros → valueOf (inc "acgcc.h" e) n = valueOf e n) :
    (∀ h ∈ [acrust_acpica, acrust_acpica_sys],
      configured inc h env "ACPI_MACHINE_WIDTH" = some (.num 64) ∧
      (64 : Nat) ∈ [32, 64] ∧
      configured inc h env "COMPILER_DEPENDENT_INT64" = some (.ident "int64_t") ∧
      typeOfMacro t (preprocess inc h ⟨env, []⟩).env "COMPILER_DEPENDENT_INT64"
        = some ⟨true, 64⟩ ∧
      configured inc h env "COMPILER_DEPENDENT_UINT64" = some (.ident "uint64_t") ∧
      typeOfMacro t (preprocess inc h ⟨env, []⟩).env "COMPILER_DEPENDENT_UINT64"
        = some ⟨false, 64⟩ ∧
      configured inc h env "ACPI_UINTPTR_T" = some (.ident "uintptr_t")) ∧
    (IntType.mk true 64).minVal = -(2 ^ 63) ∧ (IntType.mk true 64).maxVal = 2 ^ 63 - 1 ∧
    (IntType.mk false 64).minVal = 0 ∧ (IntType.mk false 64).maxVal = 2 ^ 64 - 1 ∧
    ∀ n ∈ widthMacros,
      configured inc acrust_acpica env n = configured inc acrust_acpica_sys env n := by
  obtain ⟨⟨a1, a2, a3, a4⟩, ⟨s1, s2, s3, s4⟩⟩ := configured_width_macros inc env hguard hframe
  have ty : ∀ (e : MacroEnv) (n ty : String), valueOf e n = some (.ident ty) →
      typeOfMacro t e n = stdintType t ty := by
    intro e n ty h
    simp [typeOfMacro, h]
  refine ⟨?_, by decide, by decide, by decide, by decide, ?_⟩
  · intro h hh
    simp only [List.mem_cons, List.mem_singleton, List.not_mem_nil, or_false] at hh
    rcases hh with rfl | rfl
    · exact ⟨a1, by decide, a2, by rw [ty _ _ _ a2]; simp [stdintType], a3,
        by rw [ty _ _ _ a3]; simp [stdintType], a4⟩
    · exact ⟨s1, by decide, s2, by rw [ty _ _ _ s2]; simp [stdintType], s3,
        by rw [ty _ _ _ s3]; simp [stdintType], s4⟩
  · intro n hn
    simp only [widthMacros, List.mem_cons, List.mem_singleton, List.not_mem_nil,
      or_false] at hn
    rcases hn with rfl | rfl | rfl | rfl
    · rw [a1, s1]
    · rw [a2, s2]
    · rw [a3, s3]
    · rw [a4, s4]

/-- Witness of C4: the empty initial environment, the sample includes and the
64-bit target. -/
theorem width_profile_same_in_both_variants_witness :
    isDefined ([] : MacroEnv) "__ACRUST_H__" = false ∧
    configured sampleIncludes acrust_acpica_sys [] "ACPI_MACHINE_WIDTH" = some (.num 64) ∧
    (∀ n ∈ widthMacros, configured sampleIncludes acrust_acpica [] n
      = configured sampleIncludes acrust_acpica_sys [] n) :=
  have h := width_profile_same_in_both_variants sampleIncludes [] ⟨64⟩ (by decide)
    (fun e n hn => sampleIncludes_frame "acgcc.h" e n
      (by rintro rfl; revert hn; decide) (by rintro rfl; revert hn; decide)
      (by rintro rfl; revert hn; decide) (by rintro rfl; revert hn; decide))
  ⟨by decide, (h.1 acrust_acpica_sys (by simp)).1, h.2.2.2.2.2⟩

/-- C9: in `lwipopts.h` `NO_SYS` is 0 and so `LWIP_SOCKET`, `LWIP_NETCONN` and
`LWIP_NETIF_API` each evaluate to 1; for every integer value of `NO_SYS` each
of the three is 1 when that value is 0 and 0 otherwise, so the three are
always equal. -/
theorem lwip_api_flags_follow_no_sys :
    NO_SYS = 0 ∧
    LWIP_SOCKET NO_SYS = 1 ∧ LWIP_NETCONN NO_SYS = 1 ∧ LWIP_NETIF_API NO_SYS = 1 ∧
    ∀ n : Int,
      LWIP_SOCKET n = (if n = 0 then 1 else 0) ∧
      LWIP_NETCONN n = (if n = 0 then 1 else 0) ∧
      LWIP_NETIF_API n = (if n = 0 then 1 else 0) ∧
      LWIP_SOCKET n = LWIP_NETCONN n ∧ LWIP_NETCONN n = LWIP_NETIF_API n := by
  refine ⟨rfl, by decide, by decide, by decide, ?_⟩
  intro n
  simp [LWIP_SOCKET, LWIP_NETCONN, LWIP_NETIF_API, c_eq]

/-- C2: for every template, every list of variadic arguments and every
implementation of `AcpiOsVprintf` (crashing ones included), the call
`AcpiOsPrintf(fmt, args...)` invokes `AcpiOsVprintf` exactly once, with the
same template and the same arguments in order, and leaves the world as that
one call leaves it; for an implementation that always returns, so does the
shim. A template with two integer placeholders and two values reaches the
formatter with both values in order. -/
theorem AcpiOsPrintf_forwards_once :
    (∀ (Fmt Arg W : Type) (vprintf : Fmt → List Arg → W → Option W) (fmt : Fmt)
        (args : List Arg) (w : W),
      AcpiOsPrintf vprintf fmt args w
        = (vprintf fmt args w).map (fun w' => (w', [(fmt, args)]))) ∧
    (∀ (Fmt Arg W : Type) (f : Fmt → List Arg → W → W) (fmt : Fmt) (args : List Arg) (w : W),
      AcpiOsPrintf (fun t a x => some (f t a x)) fmt args w
        = some (f fmt args w, [(fmt, args)])) ∧
    (∀ (W : Type) (f : String → List CArg → W → W) (w : W),
      (AcpiOsPrintf (fun t a x => some (f t a x)) "%d %d" [CArg.int 1, CArg.int 2] w).map
        (fun r => r.2) = some [("%d %d", [CArg.int 1, CArg.int 2])]) := by
  refine ⟨?_, ?_, ?_⟩
  · intro Fmt Arg W vprintf fmt args w
    exact AcpiOsPrintf_eq vprintf fmt args w
  · intro Fmt Arg W f fmt args w
    rw [AcpiOsPrintf_eq]
    rfl
  · intro W f w
    rw [AcpiOsPrintf_eq]
    rfl

/-- C6 as stated fails: leaving out the includes and the `ACPI_USE_*` flags,
the two variants do not make the same definitions and declarations, since the
`AcpiOsPrintf` shim is in the acpica-sys variant only. -/
theorem variants_differ_in_the_shim :
    ¬ (∀ d, d ∈ otherItems acrust_acpica ↔ d ∈ otherItems acrust_acpica_sys) := by
  intro h
  have hsys : Directive.declaration "AcpiOsPrintf"
      "static inline void AcpiOsPrintf(const char *fmt, ...) \x7b va_list args; va_start(args, fmt); AcpiOsVprintf(fmt, args); va_end(args); \x7d"
      ∈ otherItems acrust_acpica_sys := by decide
  exact absurd ((h _).mpr hsys) (by decide)

/-- C6, amended: apart from where they include the three headers and which
`ACPI_USE_*` flags they define or undefine, the variants differ exactly in the
declaration of `AcpiOsVprintf` and the `AcpiOsPrintf` shim, which the
acpica-sys variant adds after the items both share; the acpica variant makes
no declaration; every macro definition outside the `ACPI_USE_*` flags is made
identically by both; and both include the same three files. -/
theorem variants_agree_up_to_the_shim :
    otherItems acrust_acpica_sys
      = otherItems acrust_acpica ++ acrust_acpica_sys.body.filter isDeclaration ∧
    (acrust_acpica_sys.body.filter isDeclaration).map
        (fun d => match d with
          | .declaration n _ => n
          | _ => "") = ["AcpiOsVprintf", "AcpiOsPrintf"] ∧
    acrust_acpica.body.filter isDeclaration = [] ∧
    (∀ d, isDeclaration d = false →
      (d ∈ otherItems acrust_acpica ↔ d ∈ otherItems acrust_acpica_sys)) ∧
    otherItems acrust_acpica =
      [ .define "__ACRUST_H__" .empty,
        .define "ACPI_MACHINE_WIDTH" (.num 64),
        .define "COMPILER_DEPENDENT_INT64" (.ident "int64_t"),
        .define "COMPILER_DEPENDENT_UINT64" (.ident "uint64_t"),
        .define "ACPI_UINTPTR_T" (.ident "uintptr_t") ] ∧
    (∀ f, Directive.includeFile f ∈ acrust_acpica.body ↔
      Directive.includeFile f ∈ acrust_acpica_sys.body) := by
  refine ⟨by decide, by decide, by decide, ?_, by decide, ?_⟩
  · intro d hd
    have hsplit : otherItems acrust_acpica_sys
        = otherItems acrust_acpica ++ acrust_acpica_sys.body.filter isDeclaration := by decide
    rw [hsplit, List.mem_append]
    constructor
    · exact fun h => Or.inl h
    · rintro (h | h)
      · exact h
      · rw [List.mem_filter] at h
        rw [hd] at h
        exact absurd h.2 (by simp)
  · intro f
    have ha : ∀ g, Directive.includeFile g ∈ acrust_acpica.body ↔
        (g = "acgcc.h" ∨ g = "stdint.h" ∨ g = "stdarg.h") := by
      intro g
      simp [acrust_acpica]
    have hs : ∀ g, Directive.includeFile g ∈ acrust_acpica_sys.body ↔
        (g = "stdint.h" ∨ g = "stdarg.h" ∨ g = "acgcc.h") := by
      intro g
      simp [acrust_acpica_sys]
    rw [ha, hs]
    tauto

/-- C7 as stated fails: forwarding a short call does not make the message
truncated, nor exclude a crash. With the sample formatter reading the
`va_list`, the template `a=%d b=%d` called with the one argument 7, the
argument area continuing with 1, gives the message `a=7 b=1`: two values, one
of them never passed. The template `%s` called with no argument crashes. And
no callee behind the `va_list` prototype both renders the two values of the
full call and renders fewer values than placeholders in the short call. -/
theorem short_call_is_not_truncated :
    [CArg.int 7].length < placeholders false "a=%d b=%d".toList ∧
    AcpiOsPrintf (behindVaList sampleVprintf (fun _ => CArg.int 1)) "a=%d b=%d"
        [CArg.int 7] []
      = some ([[.ch 'a', .ch '=', .val (.int 7), .ch ' ', .ch 'b', .ch '=', .val (.int 1)]],
          [("a=%d b=%d", [CArg.int 7])]) ∧
    renderedValues
        [.ch 'a', .ch '=', .val (.int 7), .ch ' ', .ch 'b', .ch '=', .val (.int 1)]
      = [CArg.int 7, CArg.int 1] ∧
    ([] : List CArg).length < placeholders false "%s".toList ∧
    AcpiOsPrintf (behindVaList sampleVprintf (fun _ => CArg.int 1)) "%s" [] [] = none ∧
    ¬ ∃ body : String → (Nat → CArg) → List (List Piece) → Option (List (List Piece)),
      (∀ beyond, ∃ msg,
        AcpiOsPrintf (behindVaList body beyond) "a=%d b=%d" [CArg.int 7, CArg.int 1] []
          = some ([msg], [("a=%d b=%d", [CArg.int 7, CArg.int 1])]) ∧
        renderedValues msg = [CArg.int 7, CArg.int 1]) ∧
      (∀ beyond, ∃ msg,
        AcpiOsPrintf (behindVaList body beyond) "a=%d b=%d" [CArg.int 7] []
          = some ([msg], [("a=%d b=%d", [CArg.int 7])]) ∧
        (renderedValues msg).length < placeholders false "a=%d b=%d".toList) := by
  refine ⟨by decide, by decide, by decide, by decide, by decide, ?_⟩
  rintro ⟨body, hfull, hshort⟩
  obtain ⟨m1, h1, v1⟩ := hfull (fun _ => CArg.int 1)
  obtain ⟨m2, h2, v2⟩ := hshort (fun _ => CArg.int 1)
  have hseq : va_arg_sequence [CArg.int 7, CArg.int 1] (fun _ => CArg.int 1)
      = va_arg_sequence [CArg.int 7] (fun _ => CArg.int 1) :=
    va_arg_sequence_append [CArg.int 7] (fun _ => CArg.int 1) 1
  rw [AcpiOsPrintf_eq] at h1 h2
  simp only [behindVaList] at h1 h2
  rw [hseq] at h1
  cases hb : body "a=%d b=%d" (va_arg_sequence [CArg.int 7] (fun _ => CArg.int 1)) [] with
  | none => simp [hb] at h1
  | some w =>
    simp [hb] at h1 h2
    have hm : m1 = m2 := by
      have := h1.symm.trans h2
      simpa using this
    rw [← hm, v1] at v2
    exact absurd v2 (by decide)

/-- C7, amended: for a call whose template has more placeholders than there
are arguments, the shim has no failure of its own and does not look at the
template or count the arguments: whatever `AcpiOsVprintf` is, it gets the
template and the given arguments unchanged, in one call, and the shim returns
exactly when that call returns. What the message is, is the callee's doing:
behind the `va_list` prototype the short call is to it the same as the full
call, the one whose missing arguments are what the argument area holds next,
so the outcome in the world is the same for both. -/
theorem AcpiOsPrintf_short_arguments (fmt : String) (args : List CArg)
    (hshort : args.length < placeholders false fmt.toList) :
    (∀ (W : Type) (vprintf : String → List CArg → W → Option W) (w : W),
      AcpiOsPrintf vprintf fmt args w
        = (vprintf fmt args w).map (fun w' => (w', [(fmt, args)]))) ∧
    (∀ (W : Type) (vprintf : String → List CArg → W → Option W) (w : W),
      (AcpiOsPrintf vprintf fmt args w).isSome = (vprintf fmt args w).isSome) ∧
    (∀ (W : Type) (body : String → (Nat → CArg) → W → Option W) (beyond : Nat → CArg)
        (w : W),
      (List.range (placeholders false fmt.toList - args.length)).map beyond ≠ [] ∧
      (args ++ (List.range (placeholders false fmt.toList - args.length)).map beyond).length
        = placeholders false fmt.toList ∧
      (AcpiOsPrintf (behindVaList body beyond) fmt args w).map (fun r => r.1)
        = (AcpiOsPrintf
            (behindVaList body
              (fun i => beyond (i + (placeholders false fmt.toList - args.length))))
            fmt (args ++ (List.range (placeholders false fmt.toList - args.length)).map beyond)
            w).map (fun r => r.1)) := by
  refine ⟨?_, ?_, ?_⟩
  · intro W vprintf w
    exact AcpiOsPrintf_eq vprintf fmt args w
  · intro W vprintf w
    rw [AcpiOsPrintf_eq]
    cases vprintf fmt args w <;> rfl
  · intro W body beyond w
    refine ⟨?_, ?_, ?_⟩
    · intro hnil
      have hlen := congrArg List.length hnil
      simp only [List.length_map, List.length_range, List.length_nil] at hlen
      omega
    · simp only [List.length_append, List.length_map, List.length_range]
      omega
    · rw [AcpiOsPrintf_eq, AcpiOsPrintf_eq]
      simp only [behindVaList, va_arg_sequence_append]
      cases body fmt (va_arg_sequence args beyond) w <;> rfl

/-- Witness of C7: the template `a=%d b=%d` called with the one argument 7,
the argument area continuing with 1, leaves the log of the sample callee as
the call with the two arguments 7 and 1 leaves it. -/
theorem AcpiOsPrintf_short_arguments_witness :
    [CArg.int 7].length < placeholders false "a=%d b=%d".toList ∧
    (AcpiOsPrintf (behindVaList sampleVprintf (fun _ => CArg.int 1)) "a=%d b=%d"
        [CArg.int 7] []).map (fun r => r.1)
      = (AcpiOsPrintf (behindVaList sampleVprintf (fun _ => CArg.int 1)) "a=%d b=%d"
        [CArg.int 7, CArg.int 1] []).map (fun r => r.1) :=
  have h := AcpiOsPrintf_short_arguments "a=%d b=%d" [CArg.int 7] (by decide)
  ⟨by decide, (h.2.2 _ sampleVprintf (fun _ => CArg.int 1) []).2.2⟩

/-- C8: from every initial environment in which `__ACRUST_H__` is not defined,
with included files that leave the `ACPI_USE_*` flags alone: the acpica-sys
variant has `ACPI_USE_SYSTEM_CLIBRARY` and `ACPI_USE_STANDARD_HEADERS`
undefined at the point where `acgcc.h` is included (and at its end) and leaves
`ACPI_USE_NATIVE_DIVIDE` as it was; the acpica variant ends with
`ACPI_USE_SYSTEM_CLIBRARY` and `ACPI_USE_NATIVE_DIVIDE` defined; both end with
`ACPI_USE_DO_WHILE_0` and `ACPI_USE_LOCAL_CACHE` defined. -/
theorem use_flags_after_each_variant (inc : String → MacroEnv → MacroEnv)
    (env : MacroEnv) (decls : List (String × String))
    (hguard : isDefined env "__ACRUST_H__" = false)
    (hframe : ∀ f e n, n ∈ useFlags → valueOf (inc f e) n = valueOf e n) :
    (isDefined (stateAtInclude inc acrust_acpica_sys "acgcc.h" ⟨env, decls⟩).env
        "ACPI_USE_SYSTEM_CLIBRARY" = false ∧
     isDefined (stateAtInclude inc acrust_acpica_sys "acgcc.h" ⟨env, decls⟩).env
        "ACPI_USE_STANDARD_HEADERS" = false) ∧
    (isDefined (preprocess inc acrust_acpica_sys ⟨env, decls⟩).env
        "ACPI_USE_SYSTEM_CLIBRARY" = false ∧
     isDefined (preprocess inc acrust_acpica_sys ⟨env, decls⟩).env
        "ACPI_USE_STANDARD_HEADERS" = false) ∧
    valueOf (preprocess inc acrust_acpica_sys ⟨env, decls⟩).env "ACPI_USE_NATIVE_DIVIDE"
      = valueOf env "ACPI_USE_NATIVE_DIVIDE" ∧
    (isDefined (preprocess inc acrust_acpica ⟨env, decls⟩).env
        "ACPI_USE_SYSTEM_CLIBRARY" = true ∧
     isDefined (preprocess inc acrust_acpica ⟨env, decls⟩).env
        "ACPI_USE_NATIVE_DIVIDE" = true) ∧
    (∀ h ∈ [acrust_acpica, acrust_acpica_sys],
      isDefined (preprocess inc h ⟨env, decls⟩).env "ACPI_USE_DO_WHILE_0" = true ∧
      isDefined (preprocess inc h ⟨env, decls⟩).env "ACPI_USE_LOCAL_CACHE" = true) := by
  have f1 := fun f e => hframe f e "ACPI_USE_DO_WHILE_0" (by simp [useFlags])
  have f2 := fun f e => hframe f e "ACPI_USE_LOCAL_CACHE" (by simp [useFlags])
  have f3 := fun f e => hframe f e "ACPI_USE_NATIVE_DIVIDE" (by simp [useFlags])
  have f4 := fun f e => hframe f e "ACPI_USE_SYSTEM_CLIBRARY" (by simp [useFlags])
  have f5 := fun f e => hframe f e "ACPI_USE_STANDARD_HEADERS" (by simp [useFlags])
  have hg : valueOf env "__ACRUST_H__" = none := by
    simpa [isDefined] using hguard
  have hcut : acrust_acpica_sys.body.takeWhile
      (fun d => decide (d ≠ Directive.includeFile "acgcc.h"))
      = acrust_acpica_sys.body.take 11 := by decide
  refine ⟨⟨?_, ?_⟩, ⟨?_, ?_⟩, ?_, ⟨?_, ?_⟩, ?_⟩
  · simp [stateAtInclude, hcut, hg, run, step, acrust_acpica_sys, isDefined,
      valueOf_define, valueOf_undef]
  · simp [stateAtInclude, hcut, hg, run, step, acrust_acpica_sys, isDefined,
      valueOf_define, valueOf_undef]
  · simp [preprocess, hg, run, step, acrust_acpica_sys, isDefined,
      valueOf_define, valueOf_undef, f4]
  · simp [preprocess, hg, run, step, acrust_acpica_sys, isDefined,
      valueOf_define, valueOf_undef, f5]
  · simp [preprocess, hguard, run, step, acrust_acpica_sys,
      valueOf_define, valueOf_undef, f3]
  · simp [preprocess, hg, run, step, acrust_acpica, isDefined, valueOf_define]
  · simp [preprocess, hg, run, step, acrust_acpica, isDefined, valueOf_define]
  · intro h hh
    simp only [List.mem_cons, List.mem_singleton, List.not_mem_nil, or_false] at hh
    rcases hh with rfl | rfl
    · simp [preprocess, hg, run, step, acrust_acpica, isDefined, valueOf_define]
    · simp [preprocess, hg, run, step, acrust_acpica_sys, isDefined, valueOf_define,
        valueOf_undef, f1, f2]

/-- Witness of C8: an initial environment with all three flags in question
predefined as on a command line, and the sample includes. -/
theorem use_flags_after_each_variant_witness :
    isDefined [("ACPI_USE_NATIVE_DIVIDE", MacroBody.num 1),
        ("ACPI_USE_SYSTEM_CLIBRARY", MacroBody.num 1),
        ("ACPI_USE_STANDARD_HEADERS", MacroBody.num 1)] "__ACRUST_H__" = false ∧
    isDefined (stateAtInclude sampleIncludes acrust_acpica_sys "acgcc.h"
        ⟨[("ACPI_USE_NATIVE_DIVIDE", MacroBody.num 1),
          ("ACPI_USE_SYSTEM_CLIBRARY", MacroBody.num 1),
          ("ACPI_USE_STANDARD_HEADERS", MacroBody.num 1)], []⟩).env
        "ACPI_USE_SYSTEM_CLIBRARY" = false ∧
    valueOf (preprocess sampleIncludes acrust_acpica_sys
        ⟨[("ACPI_USE_NATIVE_DIVIDE", MacroBody.num 1),
          ("ACPI_USE_SYSTEM_CLIBRARY", MacroBody.num 1),
          ("ACPI_USE_STANDARD_HEADERS", MacroBody.num 1)], []⟩).env
        "ACPI_USE_NATIVE_DIVIDE" = some (MacroBody.num 1) :=
  have h := use_flags_after_each_variant sampleIncludes
    [("ACPI_USE_NATIVE_DIVIDE", MacroBody.num 1),
     ("ACPI_USE_SYSTEM_CLIBRARY", MacroBody.num 1),
     ("ACPI_USE_STANDARD_HEADERS", MacroBody.num 1)] [] (by decide)
    (fun f e n hn => sampleIncludes_frame f e n
      (by rintro rfl; revert hn; decide) (by rintro rfl; revert hn; decide)
      (by rintro rfl; revert hn; decide) (by rintro rfl; revert hn; decide))
  ⟨by decide, h.1.1, h.2.2.1.trans (by decide)⟩

/-- C10: inclusion of `acrust.h` is idempotent in both variants. From any
state, with included files that do not undefine `__ACRUST_H__` (idempotent or
not), processing the header twice gives the state that processing it once
gives: after the first pass the guard is defined and the second pass is
skipped. The `AcpiOsPrintf` of the acpica-sys variant is therefore emitted at
most once by the two passes, exactly once when the guard was not defined
before. -/
theorem acrust_inclusion_idempotent (inc : String → MacroEnv → MacroEnv) (s : PPState)
    (hkeep : ∀ f e, isDefined e "__ACRUST_H__" = true →
      isDefined (inc f e) "__ACRUST_H__" = true) :
    preprocess inc acrust_acpica (preprocess inc acrust_acpica s)
      = preprocess inc acrust_acpica s ∧
    preprocess inc acrust_acpica_sys (preprocess inc acrust_acpica_sys s)
      = preprocess inc acrust_acpica_sys s ∧
    isDefined (preprocess inc acrust_acpica s).env "__ACRUST_H__" = true ∧
    isDefined (preprocess inc acrust_acpica_sys s).env "__ACRUST_H__" = true ∧
    emitted "AcpiOsPrintf" (preprocess inc acrust_acpica_sys (preprocess inc acrust_acpica_sys s))
      = emitted "AcpiOsPrintf" s + (if isDefined s.env "__ACRUST_H__" then 0 else 1) ∧
    emitted "AcpiOsPrintf" (preprocess inc acrust_acpica_sys (preprocess inc acrust_acpica_sys s))
      ≤ emitted "AcpiOsPrintf" s + 1 := by
  have ha := preprocess_twice inc acrust_acpica acrust_acpica.body.tail (by decide)
    (by decide) hkeep s
  have hs := preprocess_twice inc acrust_acpica_sys acrust_acpica_sys.body.tail (by decide)
    (by decide) hkeep s
  have hga : isDefined (preprocess inc acrust_acpica s).env "__ACRUST_H__" = true := by
    by_cases hg : isDefined s.env "__ACRUST_H__" = true
    · simp [preprocess, acrust_acpica, hg]
    · have hfirst : isDefined (step inc (Directive.define "__ACRUST_H__" MacroBody.empty) s).env
          "__ACRUST_H__" = true := by simp [step, isDefined_define]
      have := run_keeps_defined inc "__ACRUST_H__" hkeep acrust_acpica.body.tail (by decide)
        _ hfirst
      simpa [preprocess, acrust_acpica, hg, run] using this
  have hgs : isDefined (preprocess inc acrust_acpica_sys s).env "__ACRUST_H__" = true := by
    by_cases hg : isDefined s.env "__ACRUST_H__" = true
    · simp [preprocess, acrust_acpica_sys, hg]
    · have hfirst : isDefined (step inc (Directive.define "__ACRUST_H__" MacroBody.empty) s).env
          "__ACRUST_H__" = true := by simp [step, isDefined_define]
      have := run_keeps_defined inc "__ACRUST_H__" hkeep acrust_acpica_sys.body.tail
        (by decide) _ hfirst
      simpa [preprocess, acrust_acpica_sys, hg, run] using this
  have hcount : emitted "AcpiOsPrintf" (preprocess inc acrust_acpica_sys s)
      = emitted "AcpiOsPrintf" s + (if isDefined s.env "__ACRUST_H__" then 0 else 1) := by
    by_cases hg : isDefined s.env "__ACRUST_H__" = true
    · simp [preprocess, acrust_acpica_sys, hg]
    · simp [preprocess, acrust_acpica_sys, hg, run, step, emitted, List.filter_append,
        List.filter]
  refine ⟨ha, hs, hga, hgs, ?_, ?_⟩
  · rw [hs, hcount]
  · rw [hs, hcount]
    split <;> omega

/-- Witness of C10: the acpica-sys variant from the empty state with the sample
includes; two passes emit the shim once. -/
theorem acrust_inclusion_idempotent_witness :
    preprocess sampleIncludes acrust_acpica_sys
        (preprocess sampleIncludes acrust_acpica_sys ⟨[], []⟩)
      = preprocess sampleIncludes acrust_acpica_sys ⟨[], []⟩ ∧
    emitted "AcpiOsPrintf" (preprocess sampleIncludes acrust_acpica_sys
        (preprocess sampleIncludes acrust_acpica_sys ⟨[], []⟩)) = 1 :=
  have h := acrust_inclusion_idempotent sampleIncludes ⟨[], []⟩
    (fun f e he => by
      have := sampleIncludes_frame f e "__ACRUST_H__" (by decide) (by decide) (by decide)
        (by decide)
      simpa [isDefined, this] using he)
  ⟨h.2.1, h.2.2.2.2.1.trans (by decide)⟩

end RustOS
